import Mathlib

/-!
Verification development for the boj-stat-visualizer submission pipeline
(`src/main.py`).  The Python code is shallowly embedded: Python dicts become
insertion-ordered association lists with unique keys (`PyDict`), Python sets
become insertion-ordered duplicate-free lists, integers become `Nat`/`Int`,
and code that can raise an exception returns `Except Unit _`.
-/

set_option autoImplicit false

namespace BojStat

/-- A Python `dict` mapping `submission_time` to `problem_id` (both
non-negative integers), modelled as an insertion-ordered association list.
Dicts built by the program always have pairwise-distinct keys
(`pyNodupKeys`).  The level catalog, whose keys come from `int()` and may
be negative, uses `LevelDict` below; the generic `pyLookup`/`pySet` model
Python dict indexing for both. -/
abbrev PyDict := List (Nat × Nat)

/-- The level catalog dict: `problem_id → level`, both arbitrary Python
ints since they come from `int()` on dataset text. -/
abbrev LevelDict := List (Int × Int)

/-- Python `d[k]` / `d.get(k)`: the value stored at key `k`, if present. -/
def pyLookup {α β : Type} [DecidableEq α] (d : List (α × β)) (k : α) : Option β :=
  match d with
  | [] => none
  | (k', v) :: rest => if k = k' then some v else pyLookup rest k

/-- Python `d[k] = v`: update the entry in place if the key exists, else
append the new entry at the end (insertion order). -/
def pySet {α β : Type} [DecidableEq α] (d : List (α × β)) (k : α) (v : β) : List (α × β) :=
  match d with
  | [] => [(k, v)]
  | (k', v') :: rest => if k = k' then (k, v) :: rest else (k', v') :: pySet rest k v

/-- Python `len(d)`: number of entries (equals the number of keys under the
`pyNodupKeys` invariant that every real Python dict satisfies). -/
def pyLen {α β : Type} (d : List (α × β)) : Nat := d.length

/-- The keys of the dict are pairwise distinct — an invariant of every
genuine Python dict. -/
def pyNodupKeys {α β : Type} (d : List (α × β)) : Prop := (d.map Prod.fst).Nodup

/-- Python `==` on dicts: same keys, same values (order-insensitive). -/
def pyEquiv (d₁ d₂ : PyDict) : Prop := ∀ k, pyLookup d₁ k = pyLookup d₂ k

instance pyNodupKeysDecidable {α β : Type} [DecidableEq α] (d : List (α × β)) :
    Decidable (pyNodupKeys d) :=
  inferInstanceAs (Decidable ((d.map Prod.fst).Nodup))

/-- Combine two optional values, taking `max` when both are present.  This is
the per-key effect of the "larger problem id wins" merge policy. -/
def omax : Option Nat → Option Nat → Option Nat
  | none, b => b
  | some a, none => some a
  | some a, some b => some (max a b)

/-- Maximum of a list of naturals, `none` on the empty list. -/
def maxList? (l : List Nat) : Option Nat :=
  l.foldl (fun acc x => omax acc (some x)) none

@[simp] theorem omax_none_left (b : Option Nat) : omax none b = b := by
  cases b <;> rfl

@[simp] theorem omax_none_right (a : Option Nat) : omax a none = a := by
  cases a <;> rfl

theorem omax_assoc (a b c : Option Nat) : omax (omax a b) c = omax a (omax b c) := by
  cases a <;> cases b <;> cases c <;> simp [omax, Nat.max_assoc]

theorem omax_comm (a b : Option Nat) : omax a b = omax b a := by
  cases a <;> cases b <;> simp [omax, Nat.max_comm]

theorem omax_idem (a : Option Nat) : omax a a = a := by
  cases a <;> simp [omax]

theorem maxList?_cons (x : Nat) (l : List Nat) :
    maxList? (x :: l) = omax (some x) (maxList? l) := by
  have aux : ∀ (l : List Nat) (a b : Option Nat),
      l.foldl (fun acc x => omax acc (some x)) (omax a b)
        = omax a (l.foldl (fun acc x => omax acc (some x)) b) := by
    intro l
    induction l with
    | nil => intro a b; rfl
    | cons y ys ih =>
      intro a b
      simp only [List.foldl_cons]
      rw [omax_assoc, ih]
  have h := aux l (some x) none
  simpa [maxList?] using h

/-- Looking a key up after `pySet` sees the new value at that key and leaves
every other key unchanged. -/
theorem pyLookup_pySet {α β : Type} [DecidableEq α] (d : List (α × β)) (k : α)
    (v : β) (j : α) :
    pyLookup (pySet d k v) j = if j = k then some v else pyLookup d j := by
  induction d with
  | nil =>
    by_cases h : j = k <;> simp [pySet, pyLookup, h]
  | cons kv rest ih =>
    obtain ⟨k', v'⟩ := kv
    by_cases hk : k = k'
    · subst hk
      by_cases hj : j = k <;> simp [pySet, pyLookup, hj]
    · by_cases hj : j = k'
      · subst hj
        have hne : ¬ j = k := fun h => hk h.symm
        simp [pySet, pyLookup, hk, hne]
      · simp [pySet, pyLookup, hk, hj, ih]

theorem pyLookup_eq_none_of_not_mem {α β : Type} [DecidableEq α]
    (d : List (α × β)) (k : α)
    (h : k ∉ d.map Prod.fst) : pyLookup d k = none := by
  induction d with
  | nil => rfl
  | cons kv rest ih =>
    obtain ⟨k', v'⟩ := kv
    simp only [List.map_cons, List.mem_cons] at h
    push_neg at h
    simp [pyLookup, h.1, ih h.2]

/-- One step of `_merge_dicts` (src/main.py, lines 129-140): for an entry
`(key, value)` of the second dict, take the `max` with the existing value if
the key is already present, otherwise insert it. -/
def mergeStep (d : PyDict) (kv : Nat × Nat) : PyDict :=
  match pyLookup d kv.1 with
  | some w => pySet d kv.1 (max w kv.2)
  | none => pySet d kv.1 kv.2

/-- Python `_merge_dicts(dict1, dict2)` (src/main.py, lines 129-140): fold the
entries of `dict2` into `dict1`, larger value winning per key.  The Python
function mutates `dict1` in place; here the updated dict is returned. -/
def merge_dicts (d₁ d₂ : PyDict) : PyDict := d₂.foldl mergeStep d₁

theorem pyLookup_mergeStep (d : PyDict) (kv : Nat × Nat) (j : Nat) :
    pyLookup (mergeStep d kv) j =
      if j = kv.1 then omax (pyLookup d kv.1) (some kv.2) else pyLookup d j := by
  unfold mergeStep
  cases h : pyLookup d kv.1 with
  | none => simp [pyLookup_pySet, h, omax]
  | some w =>
    by_cases hj : j = kv.1
    · simp [pyLookup_pySet, hj, h, omax]
    · simp [pyLookup_pySet, hj]

/-- Per-key characterisation of the merge: the stored value is the `max` of
what each side stores (the second dict must be a genuine dict, i.e. have
distinct keys). -/
theorem pyLookup_merge_dicts (d₂ d₁ : PyDict) (k : Nat)
    (h : pyNodupKeys d₂) :
    pyLookup (merge_dicts d₁ d₂) k = omax (pyLookup d₁ k) (pyLookup d₂ k) := by
  induction d₂ generalizing d₁ with
  | nil => simp [merge_dicts, pyLookup]
  | cons kv rest ih =>
    obtain ⟨k₀, v₀⟩ := kv
    have hnodup : pyNodupKeys rest := by
      simpa [pyNodupKeys] using (List.nodup_cons.mp h).2
    have hk₀ : k₀ ∉ rest.map Prod.fst := by
      simpa [pyNodupKeys] using (List.nodup_cons.mp h).1
    have hstep : merge_dicts d₁ ((k₀, v₀) :: rest)
        = merge_dicts (mergeStep d₁ (k₀, v₀)) rest := rfl
    rw [hstep, ih _ hnodup]
    by_cases hj : k = k₀
    · subst hj
      have hrest : pyLookup rest k = none := pyLookup_eq_none_of_not_mem rest k hk₀
      simp [pyLookup_mergeStep, pyLookup, hrest]
    · simp [pyLookup_mergeStep, pyLookup, hj]

/-- One cell extraction of `_parse_time_to_problem_id` (src/main.py, lines
111-120).  `ok n`: the cell with its link or attribute is present and its
text parses as the integer `n`.  `missing`: the cell or link is absent, so
the extraction raises `IndexError`, which the `except IndexError` catches
(the row is skipped with `continue`).  `fatal`: the cell is present but
malformed — blank text (`int(None)` raises `TypeError`), non-numeric text
(`ValueError`), or a ninth-cell link without the `data-timestamp`
attribute (`KeyError`); none of these is caught, so they abort the whole
parse. -/
inductive Field where
  | ok (n : Nat) : Field
  | missing : Field
  | fatal : Field
deriving DecidableEq

/-- Whether the extraction yields an integer. -/
def Field.isOk : Field → Bool
  | Field.ok _ => true
  | _ => false

/-- One `tr` row of the judge's status table: the extraction outcomes of
the sequence id (`tds[0].text`), the problem link in `tds[2]`, and the
`data-timestamp` attribute in `tds[8]`. -/
structure Row where
  seqId : Field
  problemId : Field
  submitTime : Field
deriving DecidableEq

/-- How `_parse_time_to_problem_id` fails: `rowCrash` for an uncaught
`TypeError`/`ValueError`/`KeyError` raised while extracting a row;
`unboundCursor` for the `UnboundLocalError` at the final `return` when no
processed row ever assigned `last_submit_id`. -/
inductive ParseErr where
  | rowCrash : ParseErr
  | unboundCursor : ParseErr
deriving DecidableEq

/-- Whether extracting this row raises an uncaught exception.  The `try`
block evaluates the three extractions in order and stops at the first
failure, so a `fatal` field matters only when every earlier field was
`ok` — a row whose first cell is already absent is skipped by the caught
`IndexError` even if a later cell is malformed. -/
def rowCrashes (r : Row) : Bool :=
  match r.seqId with
  | Field.fatal => true
  | Field.missing => false
  | Field.ok _ =>
    match r.problemId with
    | Field.fatal => true
    | Field.missing => false
    | Field.ok _ =>
      match r.submitTime with
      | Field.fatal => true
      | _ => false

/-- The `(submit_time, problem_id)` observation of a fully parsable row. -/
def rowObs (r : Row) : Option (Nat × Nat) :=
  match r.seqId, r.problemId, r.submitTime with
  | Field.ok _, Field.ok p, Field.ok t => some (t, p)
  | _, _, _ => none

/-- A row exposing all three fields. -/
def isFullRow (r : Row) : Bool := (rowObs r).isSome

/-- The loop body of `_parse_time_to_problem_id` on one row.  The state is
the dict under construction together with the current value of
`last_submit_id` (`none` while still unbound).  `last_submit_id` is
assigned first, so a row whose later extractions hit the caught
`IndexError` still updates the cursor; a row whose first extraction hits
it leaves the state unchanged; an uncaught exception aborts the parse.  A
fully parsable row stores `max(time_to_problem_id[submit_time],
problem_id)`, where the `defaultdict` read defaults to `0`. -/
def parse_row (st : PyDict × Option Nat) (r : Row) :
    Except ParseErr (PyDict × Option Nat) :=
  match r.seqId with
  | Field.fatal => Except.error ParseErr.rowCrash
  | Field.missing => Except.ok st
  | Field.ok sid =>
    match r.problemId with
    | Field.fatal => Except.error ParseErr.rowCrash
    | Field.missing => Except.ok (st.1, some sid)
    | Field.ok pid =>
      match r.submitTime with
      | Field.fatal => Except.error ParseErr.rowCrash
      | Field.missing => Except.ok (st.1, some sid)
      | Field.ok t =>
        Except.ok (pySet st.1 t (max ((pyLookup st.1 t).getD 0) pid), some sid)

/-- The full row loop of `_parse_time_to_problem_id`; an uncaught row
exception propagates. -/
def parse_rows : List Row → (PyDict × Option Nat) → Except ParseErr (PyDict × Option Nat)
  | [], st => Except.ok st
  | r :: rest, st =>
    match parse_row st r with
    | Except.error e => Except.error e
    | Except.ok st' => parse_rows rest st'

/-- Python `_parse_time_to_problem_id` (src/main.py, lines 98-126).  The
input is the list of `tr` rows of the page's table; `.drop 1` models the
`[1:]` header skip.  When no processed row ever assigned `last_submit_id`,
the final `return` raises `UnboundLocalError`. -/
def parse_time_to_problem_id (trs : List Row) : Except ParseErr (PyDict × Nat) :=
  match parse_rows (trs.drop 1) ([], none) with
  | Except.error e => Except.error e
  | Except.ok (d, some n) => Except.ok (d, n)
  | Except.ok (_, none) => Except.error ParseErr.unboundCursor

/-- The effect of one non-crashing row on the dict component alone. -/
def dictStep (d : PyDict) (r : Row) : PyDict :=
  match rowObs r with
  | some (t, p) => pySet d t (max ((pyLookup d t).getD 0) p)
  | none => d

/-- The effect of one non-crashing row on `last_submit_id` alone. -/
def cursorStep (c : Option Nat) (r : Row) : Option Nat :=
  match r.seqId with
  | Field.ok n => some n
  | _ => c

/-- The value of `last_submit_id` after processing rows without a crash,
starting from `c` (`none` = still unbound). -/
def lastSeq (rows : List Row) (c : Option Nat) : Option Nat :=
  rows.foldl cursorStep c

/-- The problem ids of the fully parsable rows whose submit time is `t`. -/
def pidsAt (rows : List Row) (t : Nat) : List Nat :=
  ((rows.filterMap rowObs).filter (fun o => o.1 == t)).map Prod.snd

theorem parse_row_crash (st : PyDict × Option Nat) (r : Row)
    (h : rowCrashes r = true) :
    parse_row st r = Except.error ParseErr.rowCrash := by
  obtain ⟨fs, fp, ft⟩ := r
  cases fs <;> cases fp <;> cases ft <;> simp_all [parse_row, rowCrashes]

theorem parse_row_no_crash (d : PyDict) (c : Option Nat) (r : Row)
    (h : rowCrashes r = false) :
    parse_row (d, c) r = Except.ok (dictStep d r, cursorStep c r) := by
  obtain ⟨fs, fp, ft⟩ := r
  cases fs <;> cases fp <;> cases ft <;>
    simp_all [parse_row, rowCrashes, dictStep, rowObs, cursorStep]

theorem parse_rows_no_crash (rows : List Row) (d : PyDict) (c : Option Nat)
    (h : ∀ r ∈ rows, rowCrashes r = false) :
    parse_rows rows (d, c) = Except.ok (rows.foldl dictStep d, lastSeq rows c) := by
  induction rows generalizing d c with
  | nil => rfl
  | cons r rest ih =>
    have hr : rowCrashes r = false := h r (List.mem_cons_self r rest)
    have hstep : parse_rows (r :: rest) (d, c)
        = match parse_row (d, c) r with
          | Except.error e => Except.error e
          | Except.ok st' => parse_rows rest st' := rfl
    rw [hstep, parse_row_no_crash d c r hr]
    show parse_rows rest (dictStep d r, cursorStep c r) = _
    rw [ih (dictStep d r) (cursorStep c r)
      (fun r' hr' => h r' (List.mem_cons_of_mem _ hr'))]
    rfl

theorem parse_rows_crash (rows : List Row) (st : PyDict × Option Nat)
    (h : ∃ r ∈ rows, rowCrashes r = true) :
    parse_rows rows st = Except.error ParseErr.rowCrash := by
  induction rows generalizing st with
  | nil =>
    obtain ⟨r, hr, _⟩ := h
    exact absurd hr (by simp)
  | cons r rest ih =>
    have hstep : parse_rows (r :: rest) st
        = match parse_row st r with
          | Except.error e => Except.error e
          | Except.ok st' => parse_rows rest st' := rfl
    cases hr : rowCrashes r with
    | true => rw [hstep, parse_row_crash st r hr]
    | false =>
      obtain ⟨d, c⟩ := st
      rw [hstep, parse_row_no_crash d c r hr]
      show parse_rows rest (dictStep d r, cursorStep c r) = _
      apply ih
      obtain ⟨r', hr', hcr'⟩ := h
      rcases List.mem_cons.mp hr' with h' | h'
      · exact absurd (h' ▸ hcr') (by simp [hr])
      · exact ⟨r', h', hcr'⟩

theorem parse_rows_ok_no_crash (rows : List Row) (st st' : PyDict × Option Nat)
    (h : parse_rows rows st = Except.ok st') :
    ∀ r ∈ rows, rowCrashes r = false := by
  induction rows generalizing st with
  | nil =>
    intro r hr
    exact absurd hr (by simp)
  | cons r rest ih =>
    intro r' hr'
    have hstep : parse_rows (r :: rest) st
        = match parse_row st r with
          | Except.error e => Except.error e
          | Except.ok st₁ => parse_rows rest st₁ := rfl
    rw [hstep] at h
    cases hr : rowCrashes r with
    | true =>
      rw [parse_row_crash st r hr] at h
      exact absurd h (by simp)
    | false =>
      obtain ⟨d, c⟩ := st
      rw [parse_row_no_crash d c r hr] at h
      rcases List.mem_cons.mp hr' with h' | h'
      · rw [h']
        exact hr
      · exact ih (dictStep d r, cursorStep c r) h r' h'

theorem omax_default_max (x : Option Nat) (p : Nat) (m : Option Nat) :
    omax (some (max (x.getD 0) p)) m = omax x (omax (some p) m) := by
  cases x with
  | none => simp [Option.getD]
  | some a => rw [← omax_assoc]; rfl

/-- Per-time characterisation of the page map: what the dict stores at `t`
is the `max` of what it already stored and of all problem ids observed at
`t` among the processed rows. -/
theorem pyLookup_foldl_dictStep (rows : List Row) (d : PyDict) (t : Nat) :
    pyLookup (rows.foldl dictStep d) t = omax (pyLookup d t) (maxList? (pidsAt rows t)) := by
  induction rows generalizing d with
  | nil => simp [pidsAt, maxList?]
  | cons r rest ih =>
    simp only [List.foldl_cons]
    rw [ih]
    cases hobs : rowObs r with
    | none =>
      have hd : dictStep d r = d := by simp [dictStep, hobs]
      have hp : pidsAt (r :: rest) t = pidsAt rest t := by
        simp [pidsAt, List.filterMap_cons, hobs]
      rw [hd, hp]
    | some tp =>
      obtain ⟨t', p⟩ := tp
      have hd : dictStep d r = pySet d t' (max ((pyLookup d t').getD 0) p) := by
        simp [dictStep, hobs]
      by_cases ht : t = t'
      · subst ht
        have hp : pidsAt (r :: rest) t = p :: pidsAt rest t := by
          simp [pidsAt, List.filterMap_cons, hobs, List.filter_cons]
        rw [hd, hp, maxList?_cons]
        rw [pyLookup_pySet]
        simp only [if_pos rfl]
        exact omax_default_max (pyLookup d t) p (maxList? (pidsAt rest t))
      · have hp : pidsAt (r :: rest) t = pidsAt rest t := by
          have : (t' == t) = false := by
            simp [beq_iff_eq]
            exact fun h => ht h.symm
          simp [pidsAt, List.filterMap_cons, hobs, List.filter_cons, this]
        rw [hd, hp, pyLookup_pySet]
        simp [ht]

theorem lastSeq_some (rows : List Row) (n : Nat) :
    ∃ m, lastSeq rows (some n) = some m := by
  induction rows generalizing n with
  | nil => exact ⟨n, rfl⟩
  | cons r rest ih =>
    cases hr : r.seqId with
    | ok k => simpa [lastSeq, List.foldl_cons, cursorStep, hr] using ih k
    | missing => simpa [lastSeq, List.foldl_cons, cursorStep, hr] using ih n
    | fatal => simpa [lastSeq, List.foldl_cons, cursorStep, hr] using ih n

theorem lastSeq_none_iff (rows : List Row) :
    lastSeq rows none = none ↔ ∀ r ∈ rows, r.seqId.isOk = false := by
  induction rows with
  | nil => simp [lastSeq]
  | cons r rest ih =>
    cases hr : r.seqId with
    | ok n =>
      constructor
      · intro h
        obtain ⟨m, hm⟩ := lastSeq_some rest n
        rw [lastSeq, List.foldl_cons] at h
        rw [show cursorStep none r = some n from by simp [cursorStep, hr]] at h
        rw [lastSeq] at hm
        rw [hm] at h
        exact absurd h (by simp)
      · intro h
        have hx := h r (List.mem_cons_self r rest)
        rw [hr] at hx
        exact absurd hx (by simp [Field.isOk])
    | missing =>
      have hstep : lastSeq (r :: rest) none = lastSeq rest none := by
        simp [lastSeq, List.foldl_cons, cursorStep, hr]
      rw [hstep, ih]
      constructor
      · intro h r' hr'
        rcases List.mem_cons.mp hr' with h' | h'
        · rw [h', hr]
          rfl
        · exact h r' h'
      · intro h r' hr'
        exact h r' (List.mem_cons_of_mem _ hr')
    | fatal =>
      have hstep : lastSeq (r :: rest) none = lastSeq rest none := by
        simp [lastSeq, List.foldl_cons, cursorStep, hr]
      rw [hstep, ih]
      constructor
      · intro h r' hr'
        rcases List.mem_cons.mp hr' with h' | h'
        · rw [h', hr]
          rfl
        · exact h r' h'
      · intro h r' hr'
        exact h r' (List.mem_cons_of_mem _ hr')

theorem lastSeq_append_last (rs : List Row) (r : Row) (n : Nat) (c : Option Nat)
    (h : r.seqId = Field.ok n) : lastSeq (rs ++ [r]) c = some n := by
  rw [lastSeq, List.foldl_append]
  simp [cursorStep, h]

/-- A successful page parse means no row crashed, the dict is the fold of
`dictStep` over the non-header rows, and the cursor is the last assigned
sequence id. -/
theorem parse_time_to_problem_id_ok (trs : List Row) (d : PyDict) (cur : Nat)
    (h : parse_time_to_problem_id trs = Except.ok (d, cur)) :
    (∀ r ∈ trs.drop 1, rowCrashes r = false) ∧
    d = (trs.drop 1).foldl dictStep [] ∧
    lastSeq (trs.drop 1) none = some cur := by
  unfold parse_time_to_problem_id at h
  cases hp : parse_rows (trs.drop 1) ([], none) with
  | error e =>
    rw [hp] at h
    exact absurd h (by simp)
  | ok st =>
    obtain ⟨d₀, c₀⟩ := st
    rw [hp] at h
    cases c₀ with
    | none => exact absurd h (by simp)
    | some n =>
      simp only [Except.ok.injEq, Prod.mk.injEq] at h
      have hnc : ∀ r ∈ trs.drop 1, rowCrashes r = false :=
        parse_rows_ok_no_crash (trs.drop 1) ([], none) (d₀, some n) hp
      have hok := parse_rows_no_crash (trs.drop 1) [] none hnc
      rw [hp] at hok
      simp only [Except.ok.injEq, Prod.mk.injEq] at hok
      refine ⟨hnc, ?_, ?_⟩
      · rw [← h.1]
        exact hok.1
      · rw [← hok.2, h.2]

/-- Looking up a key in an appended list falls through to the right part
only when the left part misses the key. -/
theorem pyLookup_append {α β : Type} [DecidableEq α] (a b : List (α × β)) (k : α) :
    pyLookup (a ++ b) k = match pyLookup a k with
      | some v => some v
      | none => pyLookup b k := by
  induction a with
  | nil => rfl
  | cons kv rest ih =>
    obtain ⟨k', v'⟩ := kv
    by_cases hk : k = k' <;> simp [pyLookup, hk, ih]

theorem pySet_fresh {α β : Type} [DecidableEq α] (d : List (α × β)) (k : α)
    (v : β) (h : pyLookup d k = none) :
    pySet d k v = d ++ [(k, v)] := by
  induction d with
  | nil => rfl
  | cons kv rest ih =>
    obtain ⟨k', v'⟩ := kv
    by_cases hk : k = k'
    · rw [pyLookup, if_pos hk] at h
      exact absurd h (by simp)
    · rw [pyLookup, if_neg hk] at h
      simp [pySet, hk, ih h]

/-- Merging a dict whose keys are all fresh appends its entries in order. -/
theorem merge_dicts_fresh (d₂ d₁ : PyDict)
    (hfresh : ∀ k ∈ d₂.map Prod.fst, pyLookup d₁ k = none)
    (hnodup : pyNodupKeys d₂) :
    merge_dicts d₁ d₂ = d₁ ++ d₂ := by
  induction d₂ generalizing d₁ with
  | nil => simp [merge_dicts]
  | cons kv rest ih =>
    obtain ⟨k₀, v₀⟩ := kv
    have hk₀ : pyLookup d₁ k₀ = none := hfresh k₀ (by simp)
    have hstep : mergeStep d₁ (k₀, v₀) = d₁ ++ [(k₀, v₀)] := by
      unfold mergeStep
      rw [hk₀]
      exact pySet_fresh d₁ k₀ v₀ hk₀
    have hnotmem : k₀ ∉ rest.map Prod.fst := by
      simpa [pyNodupKeys] using (List.nodup_cons.mp hnodup).1
    have hrest : pyNodupKeys rest := by
      simpa [pyNodupKeys] using (List.nodup_cons.mp hnodup).2
    have hmain : merge_dicts d₁ ((k₀, v₀) :: rest)
        = merge_dicts (mergeStep d₁ (k₀, v₀)) rest := rfl
    rw [hmain, hstep, ih (d₁ ++ [(k₀, v₀)]) ?_ hrest, List.append_assoc]
    · rfl
    · intro k hk
      rw [pyLookup_append, hfresh k (by simp [hk])]
      have hne : k ≠ k₀ := fun h => hnotmem (h ▸ hk)
      simp [pyLookup, hne]

/-- Page-count bound of the aggregation loop (src/main.py, line 25). -/
def MAX_FETCH_PAGE : Nat := 5

/-- Accumulated-size bound of the aggregation loop (src/main.py, line 26). -/
def MAX_FETCH_SIZE : Nat := 200

/-- Observable outcome of one aggregation run: the final map (or the
propagated parse failure), the number of page fetches issued, and — as
instrumentation for stating the loop invariant — the size of the
accumulated map at the moment each fetch was issued. -/
structure AggRun where
  result : Except Unit PyDict
  fetches : Nat
  sizesAtFetch : List Nat

/-- The `while` loop of `get_time_to_problem_id` (src/main.py, lines
148-158).  `fp` models `_get_page` followed by `_parse_time_to_problem_id`
for the given user: from a pagination cursor (`none` for the first page,
where `last_submit_id` is the falsy `""`) it yields the page's parsed map
and next cursor, or the parse failure that aborts the whole run.  The
first argument is `left_page`. -/
def agg_loop (fp : Option Nat → Except Unit (PyDict × Nat)) :
    Nat → PyDict → Option Nat → AggRun
  | 0, d, _ => ⟨Except.ok d, 0, []⟩
  | n + 1, d, cur =>
    if pyLen d < MAX_FETCH_SIZE then
      match fp cur with
      | Except.error e => ⟨Except.error e, 1, [pyLen d]⟩
      | Except.ok (data, nxt) =>
        let r := agg_loop fp n (merge_dicts d data) (some nxt)
        ⟨r.result, r.fetches + 1, pyLen d :: r.sizesAtFetch⟩
    else ⟨Except.ok d, 0, []⟩

/-- Python `get_time_to_problem_id` (src/main.py, lines 143-158): run the
loop with `left_page = MAX_FETCH_PAGE`, an empty map and an empty cursor. -/
def get_time_to_problem_id (fp : Option Nat → Except Unit (PyDict × Nat)) : AggRun :=
  agg_loop fp MAX_FETCH_PAGE [] none

theorem agg_loop_succ_stop (fp : Option Nat → Except Unit (PyDict × Nat))
    (n : Nat) (d : PyDict) (c : Option Nat) (hsz : ¬ pyLen d < MAX_FETCH_SIZE) :
    agg_loop fp (n + 1) d c = ⟨Except.ok d, 0, []⟩ := by
  unfold agg_loop
  rw [if_neg hsz]

theorem agg_loop_succ_err (fp : Option Nat → Except Unit (PyDict × Nat))
    (n : Nat) (d : PyDict) (c : Option Nat) (e : Unit)
    (hsz : pyLen d < MAX_FETCH_SIZE) (hfp : fp c = Except.error e) :
    agg_loop fp (n + 1) d c = ⟨Except.error e, 1, [pyLen d]⟩ := by
  unfold agg_loop
  rw [if_pos hsz, hfp]

theorem agg_loop_succ_ok (fp : Option Nat → Except Unit (PyDict × Nat))
    (n : Nat) (d : PyDict) (c : Option Nat) (data : PyDict) (nxt : Nat)
    (hsz : pyLen d < MAX_FETCH_SIZE) (hfp : fp c = Except.ok (data, nxt)) :
    agg_loop fp (n + 1) d c =
      ⟨(agg_loop fp n (merge_dicts d data) (some nxt)).result,
       (agg_loop fp n (merge_dicts d data) (some nxt)).fetches + 1,
       pyLen d :: (agg_loop fp n (merge_dicts d data) (some nxt)).sizesAtFetch⟩ := by
  conv_lhs => unfold agg_loop
  rw [if_pos hsz, hfp]

theorem agg_loop_fetches_le (fp : Option Nat → Except Unit (PyDict × Nat))
    (n : Nat) (d : PyDict) (c : Option Nat) :
    (agg_loop fp n d c).fetches ≤ n := by
  induction n generalizing d c with
  | zero => exact Nat.le_refl 0
  | succ n ih =>
    by_cases hsz : pyLen d < MAX_FETCH_SIZE
    · cases hfp : fp c with
      | error e =>
        rw [agg_loop_succ_err fp n d c e hsz hfp]
        exact Nat.succ_le_succ (Nat.zero_le n)
      | ok p =>
        obtain ⟨data, nxt⟩ := p
        rw [agg_loop_succ_ok fp n d c data nxt hsz hfp]
        exact Nat.succ_le_succ (ih (merge_dicts d data) (some nxt))
    · rw [agg_loop_succ_stop fp n d c hsz]
      exact Nat.zero_le _

theorem agg_loop_stop (fp : Option Nat → Except Unit (PyDict × Nat))
    (n : Nat) (d : PyDict) (c : Option Nat) (d' : PyDict)
    (h : (agg_loop fp n d c).result = Except.ok d') :
    (agg_loop fp n d c).fetches = n ∨ MAX_FETCH_SIZE ≤ pyLen d' := by
  induction n generalizing d c with
  | zero => exact Or.inl rfl
  | succ n ih =>
    by_cases hsz : pyLen d < MAX_FETCH_SIZE
    · cases hfp : fp c with
      | error e =>
        rw [agg_loop_succ_err fp n d c e hsz hfp] at h
        exact absurd h (by simp)
      | ok p =>
        obtain ⟨data, nxt⟩ := p
        rw [agg_loop_succ_ok fp n d c data nxt hsz hfp] at h ⊢
        rcases ih (merge_dicts d data) (some nxt) h with h1 | h1
        · exact Or.inl (by simp [h1])
        · exact Or.inr h1
    · rw [agg_loop_succ_stop fp n d c hsz] at h ⊢
      have hd : d = d' := by simpa using h
      exact Or.inr (hd ▸ Nat.le_of_not_lt hsz)

theorem agg_loop_sizes (fp : Option Nat → Except Unit (PyDict × Nat))
    (n : Nat) (d : PyDict) (c : Option Nat) (s : Nat)
    (h : s ∈ (agg_loop fp n d c).sizesAtFetch) : s < MAX_FETCH_SIZE := by
  induction n generalizing d c with
  | zero => exact absurd h (by simp [agg_loop])
  | succ n ih =>
    by_cases hsz : pyLen d < MAX_FETCH_SIZE
    · cases hfp : fp c with
      | error e =>
        rw [agg_loop_succ_err fp n d c e hsz hfp] at h
        simp only [List.mem_singleton] at h
        exact h ▸ hsz
      | ok p =>
        obtain ⟨data, nxt⟩ := p
        rw [agg_loop_succ_ok fp n d c data nxt hsz hfp] at h
        simp only [List.mem_cons] at h
        rcases h with h | h
        · exact h ▸ hsz
        · exact ih (merge_dicts d data) (some nxt) h
    · rw [agg_loop_succ_stop fp n d c hsz] at h
      exact absurd h (by simp)

/-- The ASCII whitespace characters Python strips around `int()` input:
space, tab, newline, carriage return, vertical tab, form feed. -/
def pyIsSpace (c : Char) : Bool :=
  c == ' ' || c == '\t' || c == '\n' || c == '\r' || c == '\x0b' || c == '\x0c'

/-- Strip leading and trailing whitespace from a character list. -/
def pyStrip (cs : List Char) : List Char :=
  ((cs.dropWhile pyIsSpace).reverse.dropWhile pyIsSpace).reverse

/-- Digits continuing a number whose leading digits have value `acc`, with
single underscores allowed between digits: Python `int` accepts `1_0` but
rejects `_1`, `1_` and `1__0`. -/
def parseDigitsUnd : List Char → Nat → Option Nat
  | [], acc => some acc
  | [c], acc => if c.isDigit then some (acc * 10 + (c.toNat - 48)) else none
  | c :: c' :: cs, acc =>
    if c.isDigit then parseDigitsUnd (c' :: cs) (acc * 10 + (c.toNat - 48))
    else if c == '_' then
      if c'.isDigit then parseDigitsUnd cs (acc * 10 + (c'.toNat - 48))
      else none
    else none

/-- An unsigned decimal integer: a digit followed by digits with optional
single underscores between them. -/
def parseUnsigned : List Char → Option Nat
  | [] => none
  | c :: cs => if c.isDigit then parseDigitsUnd cs (c.toNat - 48) else none

/-- Python `int(s)` on ASCII text: optional surrounding whitespace, an
optional single `+` or `-` sign, then a nonempty digit run with single
underscores allowed between digits; anything else raises `ValueError`,
modelled as `none`.  (Non-ASCII digit characters, which `int()` also
accepts, do not occur in this program's dataset and are out of scope.) -/
def pyInt? (s : String) : Option Int :=
  match pyStrip s.data with
  | [] => none
  | '+' :: cs => (parseUnsigned cs).map (fun n => (n : Int))
  | '-' :: cs => (parseUnsigned cs).map (fun n => -(n : Int))
  | cs => (parseUnsigned cs).map (fun n => (n : Int))

/-- One character of Python `str.split(",")`, processed right to left: a
comma opens a new empty piece, any other character is prepended to the
first piece. -/
def splitCommaStep (ch : Char) (groups : List (List Char)) : List (List Char) :=
  if ch = ',' then [] :: groups
  else
    match groups with
    | [] => [[ch]]
    | g :: gs => (ch :: g) :: gs

/-- Split a character list at every comma, keeping empty pieces — the
semantics of Python `str.split(",")`. -/
def splitCommaAux : List Char → List (List Char)
  | [] => [[]]
  | ch :: rest => splitCommaStep ch (splitCommaAux rest)

/-- Python `line.split(",")`. -/
def splitComma (s : String) : List String :=
  (splitCommaAux s.data).map String.mk

theorem splitCommaAux_ne_nil (cs : List Char) : splitCommaAux cs ≠ [] := by
  induction cs with
  | nil => simp [splitCommaAux]
  | cons ch rest ih =>
    show splitCommaStep ch (splitCommaAux rest) ≠ []
    unfold splitCommaStep
    by_cases hc : ch = ','
    · simp [hc]
    · rw [if_neg hc]
      cases hs : splitCommaAux rest with
      | nil => simp
      | cons g gs => simp

theorem comma_mem_iff_two_le_splitCommaAux (cs : List Char) :
    ',' ∈ cs ↔ 2 ≤ (splitCommaAux cs).length := by
  induction cs with
  | nil => simp [splitCommaAux]
  | cons ch rest ih =>
    have hne := splitCommaAux_ne_nil rest
    by_cases hc : ch = ','
    · subst hc
      constructor
      · intro _
        show 2 ≤ (splitCommaStep ',' (splitCommaAux rest)).length
        rw [show splitCommaStep ',' (splitCommaAux rest) = [] :: splitCommaAux rest
          from by simp [splitCommaStep]]
        cases hs : splitCommaAux rest with
        | nil => exact absurd hs hne
        | cons g gs => simp
      · intro _
        exact List.mem_cons_self _ _
    · have hlen : (splitCommaStep ch (splitCommaAux rest)).length
          = (splitCommaAux rest).length := by
        cases hs : splitCommaAux rest with
        | nil => exact absurd hs hne
        | cons g gs => simp [splitCommaStep, hc]
      constructor
      · intro hmem
        have hmem' : ',' ∈ rest := by
          rcases List.mem_cons.mp hmem with h' | h'
          · exact absurd h'.symm hc
          · exact h'
        show 2 ≤ (splitCommaStep ch (splitCommaAux rest)).length
        rw [hlen]
        exact ih.mp hmem'
      · intro h2
        have hx : 2 ≤ (splitCommaStep ch (splitCommaAux rest)).length := h2
        rw [hlen] at hx
        exact List.mem_cons_of_mem _ (ih.mpr hx)

/-- A split into two or more pieces means the line contains a comma. -/
theorem contains_comma_of_two_pieces (line : String)
    (h : 2 ≤ (splitComma line).length) : line.data.contains ',' = true := by
  have h' : 2 ≤ (splitCommaAux line.data).length := by
    simpa [splitComma] using h
  have hm : ',' ∈ line.data := (comma_mem_iff_two_le_splitCommaAux line.data).mpr h'
  show line.data.elem ',' = true
  exact List.elem_iff.mpr hm

/-- The body of the line loop of `_get_problem_level_dict` (src/main.py,
lines 166-180) on one line of the dataset: a line without a comma is
skipped; otherwise `line.split(",")` must yield exactly two pieces
(`ValueError` on unpacking otherwise) and both must parse as Python
integers (`ValueError` from `int` otherwise). -/
def parse_level_fields (d : LevelDict) : List String → Except Unit LevelDict
  | [a, b] =>
    match pyInt? a, pyInt? b with
    | some i, some l => Except.ok (pySet d i l)
    | _, _ => Except.error ()
  | _ => Except.error ()

def parse_level_line (d : LevelDict) (line : String) : Except Unit LevelDict :=
  if line.data.contains ',' then parse_level_fields d (splitComma line)
  else Except.ok d

/-- The line loop of `_get_problem_level_dict`: an uncaught `ValueError`
aborts the whole load. -/
def load_level_lines (lines : List String) (d : LevelDict) : Except Unit LevelDict :=
  match lines with
  | [] => Except.ok d
  | line :: rest =>
    match parse_level_line d line with
    | Except.ok d' => load_level_lines rest d'
    | Except.error e => Except.error e

/-- Python `_get_problem_level_dict` (src/main.py, lines 166-180), applied
to the lines of `problem_level_mapping.csv`. -/
def get_problem_level_dict (lines : List String) : Except Unit LevelDict :=
  load_level_lines lines []

/-- The `LEVEL_REFERENCE` table (src/main.py, lines 34-66), keeping only the
label text of each `rich.Text` entry.  Keys outside `0..30` are absent
(`KeyError` in Python). -/
def levelRef : Nat → Option String
  | 0 => some "NR"
  | 1 => some "B5"
  | 2 => some "B4"
  | 3 => some "B3"
  | 4 => some "B2"
  | 5 => some "B1"
  | 6 => some "S5"
  | 7 => some "S4"
  | 8 => some "S3"
  | 9 => some "S2"
  | 10 => some "S1"
  | 11 => some "G5"
  | 12 => some "G4"
  | 13 => some "G3"
  | 14 => some "G2"
  | 15 => some "G1"
  | 16 => some "P5"
  | 17 => some "P4"
  | 18 => some "P3"
  | 19 => some "P2"
  | 20 => some "P1"
  | 21 => some "D5"
  | 22 => some "D4"
  | 23 => some "D3"
  | 24 => some "D2"
  | 25 => some "D1"
  | 26 => some "R5"
  | 27 => some "R4"
  | 28 => some "R3"
  | 29 => some "R2"
  | 30 => some "R1"
  | _ => none

/-- `LEVEL_REFERENCE[z]` for a Python int key: entries exist exactly for
`0..30`. -/
def levelRefZ (z : Int) : Option String :=
  if z < 0 then none else levelRef z.toNat

/-- Insert into a descending-sorted list. -/
def insertDesc (x : Int) : List Int → List Int
  | [] => [x]
  | y :: ys => if y ≤ x then x :: y :: ys else y :: insertDesc x ys

/-- Python `reversed(sorted(l))` on a list of ints. -/
def sortDesc (l : List Int) : List Int := l.foldr insertDesc []

/-- Python `_get_problem_levels` (src/main.py, lines 183-195).  The catalog
lookups use `dict.get`, which yields `None` for an unknown problem id; any
`None` among the looked-up levels then crashes the call — in `sorted`
(`TypeError`: `None` is compared against a neighbour whenever the list has
two or more elements) or at `LEVEL_REFERENCE[None]` (`KeyError`, singleton
case).  Both crashes are modelled as `.error ()`, as is the `KeyError` for
a level outside the `LEVEL_REFERENCE` table. -/
def get_problem_levels (catalog : LevelDict) (ids : List Nat) : Except Unit (List String) :=
  if ids.isEmpty then Except.ok []
  else
    let levels := ids.map (fun (i : Nat) => pyLookup catalog (i : Int))
    if levels.all Option.isSome then
      match (sortDesc (levels.map (fun o => o.getD 0))).mapM levelRefZ with
      | some labels => Except.ok labels
      | none => Except.error ()
    else Except.error ()

/-- Python `_parse_date` (src/main.py, lines 198-199) as a calendar-day
number: `datetime.fromtimestamp(t, TIMEZONE).date()` with
`TIMEZONE = Africa/Addis_Ababa`, a fixed UTC+3 zone with no daylight
saving, is the day `(t + 3*3600) / 86400` since the epoch. -/
def parse_date (t : Nat) : Int := (((t + 10800) / 86400 : Nat) : Int)

/-- Python `set.add` on an insertion-ordered duplicate-free list. -/
def pySetAdd (s : List Nat) (x : Nat) : List Nat :=
  if x ∈ s then s else s ++ [x]

/-- Update of `defaultdict(set)` at date `dd`: create a fresh singleton
bucket or add to the existing one. -/
def bucketAdd (acc : List (Int × List Nat)) (dd : Int) (p : Nat) : List (Int × List Nat) :=
  match acc with
  | [] => [(dd, [p])]
  | (d', s) :: rest =>
    if dd = d' then (d', pySetAdd s p) :: rest else (d', s) :: bucketAdd rest dd p

/-- Python `_group_problem_ids_per_day` (src/main.py, lines 206-215). -/
def group_problem_ids_per_day (m : PyDict) : List (Int × List Nat) :=
  m.foldl (fun acc kv => bucketAdd acc (parse_date kv.1) kv.2) []

/-- Python `date_to_problem_ids.get(day)`. -/
def bucketGet (g : List (Int × List Nat)) (dd : Int) : Option (List Nat) :=
  match g with
  | [] => none
  | (d', s) :: rest => if dd = d' then some s else bucketGet rest dd

/-- One rendered cell of a report row: the `"-"` no-activity marker or the
comma-joined level labels (kept as a list; joining is pure rendering). -/
inductive PyCell where
  | dash : PyCell
  | levels (labels : List String) : PyCell

/-- The window of report days used by `view_table` (src/main.py, lines
219-222): `[today - timedelta(days=i) for i in range(1, n + 1)]`, newest
first.  A day is a calendar-day number, `today` the day number of
`datetime.now(TIMEZONE).date()`. -/
def window_days (today : Int) (n : Nat) : List Int :=
  (List.range' 1 n).map (fun (i : Nat) => today - (i : Int))

/-- One day cell of a user's row (src/main.py, lines 233-244): a missing or
empty bucket renders the `"-"` marker, otherwise the bucket's problem ids
are resolved to level labels (which can crash, propagated as `.error`). -/
def day_cell (catalog : LevelDict) (g : List (Int × List Nat)) (day : Int) :
    Except Unit PyCell :=
  match bucketGet g day with
  | none => Except.ok PyCell.dash
  | some ids =>
    if ids.isEmpty then Except.ok PyCell.dash
    else
      match get_problem_levels catalog ids with
      | Except.ok labels => Except.ok (PyCell.levels labels)
      | Except.error e => Except.error e

/-- Sequential traversal in `Except`: the first crash aborts the row, as an
uncaught Python exception aborts `view_table`. -/
def cellsM (catalog : LevelDict) (g : List (Int × List Nat)) :
    List Int → Except Unit (List PyCell)
  | [] => Except.ok []
  | day :: rest =>
    match day_cell catalog g day with
    | Except.error e => Except.error e
    | Except.ok cell =>
      match cellsM catalog g rest with
      | Except.error e => Except.error e
      | Except.ok cells => Except.ok (cell :: cells)

/-- The per-user day cells of one row of `view_table` (src/main.py, lines
229-245): one cell per window day, in window (newest-first) order, matching
the column headers built from the same `days` list. -/
def view_row (catalog : LevelDict) (today : Int) (n : Nat) (m : PyDict) :
    Except Unit (List PyCell) :=
  cellsM catalog (group_problem_ids_per_day m) (window_days today n)

theorem cellsM_ok_length (catalog : LevelDict) (g : List (Int × List Nat))
    (days : List Int) (cells : List PyCell)
    (h : cellsM catalog g days = Except.ok cells) : cells.length = days.length := by
  induction days generalizing cells with
  | nil =>
    have : cells = [] := by
      simpa [cellsM] using h.symm
    simp [this]
  | cons day rest ih =>
    unfold cellsM at h
    cases hdc : day_cell catalog g day with
    | error e => rw [hdc] at h; exact absurd h (by simp)
    | ok cell =>
      rw [hdc] at h
      cases hcr : cellsM catalog g rest with
      | error e => rw [hcr] at h; exact absurd h (by simp)
      | ok cs =>
        rw [hcr] at h
        have hc : cells = cell :: cs := by simpa using h.symm
        simp [hc, ih cs hcr]

theorem cellsM_ok_getElem? (catalog : LevelDict) (g : List (Int × List Nat))
    (days : List Int) (cells : List PyCell)
    (h : cellsM catalog g days = Except.ok cells) (i : Nat) (day : Int)
    (hd : days[i]? = some day) :
    ∃ cell, cells[i]? = some cell ∧ day_cell catalog g day = Except.ok cell := by
  induction days generalizing cells i with
  | nil => exact absurd hd (by simp)
  | cons d₀ rest ih =>
    unfold cellsM at h
    cases hdc : day_cell catalog g d₀ with
    | error e => rw [hdc] at h; exact absurd h (by simp)
    | ok cell =>
      rw [hdc] at h
      cases hcr : cellsM catalog g rest with
      | error e => rw [hcr] at h; exact absurd h (by simp)
      | ok cs =>
        rw [hcr] at h
        have hc : cells = cell :: cs := by simpa using h.symm
        subst hc
        cases i with
        | zero =>
          have hday : d₀ = day := by simpa using hd
          exact ⟨cell, by simp, hday ▸ hdc⟩
        | succ i =>
          have hd' : rest[i]? = some day := by simpa using hd
          obtain ⟨cell', h₁, h₂⟩ := ih cs hcr i hd'
          exact ⟨cell', by simpa using h₁, h₂⟩

theorem window_days_getElem? (today : Int) (n i : Nat) (h : i < n) :
    (window_days today n)[i]? = some (today - ((i : Int) + 1)) := by
  unfold window_days
  rw [List.getElem?_map, List.getElem?_range' 1 1 h]
  simp only [Option.map_some']
  congr 1
  push_cast
  ring

theorem pySetAdd_ne_nil (s : List Nat) (x : Nat) : pySetAdd s x ≠ [] := by
  unfold pySetAdd
  by_cases hx : x ∈ s
  · rw [if_pos hx]
    intro hnil
    rw [hnil] at hx
    exact absurd hx (by simp)
  · rw [if_neg hx]
    simp

theorem bucketGet_bucketAdd (acc : List (Int × List Nat)) (dd : Int) (p : Nat) (j : Int) :
    bucketGet (bucketAdd acc dd p) j =
      if j = dd then
        some (match bucketGet acc dd with
          | some s => pySetAdd s p
          | none => [p])
      else bucketGet acc j := by
  induction acc with
  | nil =>
    by_cases hj : j = dd <;> simp [bucketAdd, bucketGet, hj]
  | cons e rest ih =>
    obtain ⟨d', s⟩ := e
    by_cases hdd : dd = d'
    · subst hdd
      by_cases hj : j = dd <;> simp [bucketAdd, bucketGet, hj]
    · by_cases hj : j = d'
      · subst hj
        have hne : ¬ j = dd := fun h => hdd h.symm
        simp [bucketAdd, hdd, bucketGet, hne]
      · by_cases hjd : j = dd
        · subst hjd
          simp [bucketAdd, hdd, bucketGet, hj, ih]
        · simp [bucketAdd, hdd, bucketGet, hj, hjd, ih]

theorem bucketGet_fold_none_iff (m : PyDict) (acc : List (Int × List Nat)) (dd : Int) :
    bucketGet (m.foldl (fun acc kv => bucketAdd acc (parse_date kv.1) kv.2) acc) dd = none
      ↔ bucketGet acc dd = none ∧ ∀ kv ∈ m, parse_date kv.1 ≠ dd := by
  induction m generalizing acc with
  | nil => simp
  | cons kv rest ih =>
    simp only [List.foldl_cons]
    rw [ih]
    rw [bucketGet_bucketAdd]
    by_cases hdd : dd = parse_date kv.1
    · constructor
      · intro ⟨h1, _⟩
        rw [if_pos hdd] at h1
        exact absurd h1 (by simp)
      · intro ⟨_, h2⟩
        exact absurd (h2 kv (by simp)) (fun hne => hne hdd.symm)
    · rw [if_neg hdd]
      constructor
      · intro ⟨h1, h2⟩
        refine ⟨h1, ?_⟩
        intro kv' hkv'
        rcases List.mem_cons.mp hkv' with h' | h'
        · subst h'; exact fun he => hdd he.symm
        · exact h2 kv' h'
      · intro ⟨h1, h2⟩
        exact ⟨h1, fun kv' hkv' => h2 kv' (List.mem_cons_of_mem _ hkv')⟩

theorem bucketGet_group_none_iff (m : PyDict) (dd : Int) :
    bucketGet (group_problem_ids_per_day m) dd = none
      ↔ ∀ kv ∈ m, parse_date kv.1 ≠ dd := by
  unfold group_problem_ids_per_day
  rw [bucketGet_fold_none_iff]
  simp [bucketGet]

theorem bucketGet_fold_ne_nil (m : PyDict) (acc : List (Int × List Nat))
    (hacc : ∀ dd s, bucketGet acc dd = some s → s ≠ [])
    (dd : Int) (s : List Nat)
    (h : bucketGet (m.foldl (fun acc kv => bucketAdd acc (parse_date kv.1) kv.2) acc) dd
      = some s) : s ≠ [] := by
  induction m generalizing acc with
  | nil => exact hacc dd s h
  | cons kv rest ih =>
    simp only [List.foldl_cons] at h
    refine ih (bucketAdd acc (parse_date kv.1) kv.2) ?_ h
    intro dd' s' h'
    rw [bucketGet_bucketAdd] at h'
    by_cases hj : dd' = parse_date kv.1
    · rw [if_pos hj] at h'
      cases hb : bucketGet acc (parse_date kv.1) with
      | none =>
        rw [hb] at h'
        simp only [Option.some.injEq] at h'
        rw [← h']
        simp
      | some s₀ =>
        rw [hb] at h'
        simp only [Option.some.injEq] at h'
        rw [← h']
        exact pySetAdd_ne_nil s₀ kv.2
    · rw [if_neg hj] at h'
      exact hacc dd' s' h'

theorem bucketGet_group_ne_nil (m : PyDict) (dd : Int) (s : List Nat)
    (h : bucketGet (group_problem_ids_per_day m) dd = some s) : s ≠ [] :=
  bucketGet_fold_ne_nil m [] (fun dd' s' h' => absurd h' (by simp [bucketGet])) dd s h

theorem day_cell_dash_iff (catalog : LevelDict) (m : PyDict) (day : Int) :
    day_cell catalog (group_problem_ids_per_day m) day = Except.ok PyCell.dash
      ↔ ∀ kv ∈ m, parse_date kv.1 ≠ day := by
  rw [← bucketGet_group_none_iff]
  cases hb : bucketGet (group_problem_ids_per_day m) day with
  | none => simp [day_cell, hb]
  | some ids =>
    have hne : ids ≠ [] := bucketGet_group_ne_nil m day ids hb
    have hemp : ids.isEmpty = false := by
      cases ids with
      | nil => exact absurd rfl hne
      | cons a l => rfl
    have hdc : day_cell catalog (group_problem_ids_per_day m) day
        = match get_problem_levels catalog ids with
          | Except.ok labels => Except.ok (PyCell.levels labels)
          | Except.error e => Except.error e := by
      unfold day_cell
      rw [hb]
      simp [hemp]
    rw [hdc]
    constructor
    · intro h
      exfalso
      cases hg : get_problem_levels catalog ids with
      | error e => rw [hg] at h; simp at h
      | ok labels => rw [hg] at h; simp at h
    · intro h
      simp at h

theorem foldl_dictStep_no_full (rows : List Row) (d : PyDict)
    (h : ∀ r ∈ rows, isFullRow r = false) : rows.foldl dictStep d = d := by
  induction rows generalizing d with
  | nil => rfl
  | cons r rest ih =>
    have hr : isFullRow r = false := h r (List.mem_cons_self r rest)
    have hobs : rowObs r = none := by
      cases ho : rowObs r with
      | none => rfl
      | some x => rw [isFullRow, ho] at hr; exact absurd hr (by simp)
    simp only [List.foldl_cons]
    rw [show dictStep d r = d from by simp [dictStep, hobs]]
    exact ih d (fun r' hr' => h r' (List.mem_cons_of_mem _ hr'))

theorem foldl_dictStep_filter (rows : List Row) (d : PyDict) :
    rows.foldl dictStep d = (rows.filter isFullRow).foldl dictStep d := by
  induction rows generalizing d with
  | nil => rfl
  | cons r rest ih =>
    by_cases hr : isFullRow r = true
    · simp only [List.foldl_cons, List.filter_cons, hr, if_pos]
      exact ih (dictStep d r)
    · have hrf : isFullRow r = false := by
        cases hb : isFullRow r with
        | false => rfl
        | true => exact absurd hb hr
      have hobs : rowObs r = none := by
        cases ho : rowObs r with
        | none => rfl
        | some x => rw [isFullRow, ho] at hrf; exact absurd hrf (by simp)
      simp only [List.foldl_cons, List.filter_cons, hrf]
      rw [show dictStep d r = d from by simp [dictStep, hobs]]
      simp only [Bool.false_eq_true, if_false]
      exact ih d

/-- A page oracle serving the same one-entry page on every fetch. -/
def smallPageOracle : Option Nat → Except Unit (PyDict × Nat) :=
  fun _ => Except.ok ([(7, 3)], 0)

/-- A page with 201 distinct submission times — one more than
`MAX_FETCH_SIZE`. -/
def bigPage : PyDict := (List.range 201).map (fun i => (i, 1))

/-- A page oracle serving the oversized page on every fetch. -/
def bigPageOracle : Option Nat → Except Unit (PyDict × Nat) :=
  fun _ => Except.ok (bigPage, 0)

/-- Claim C1: for every user (modelled by its page oracle `fp`) the
aggregation loop of `get_time_to_problem_id` terminates (the embedded loop
is a total function), issues at most `MAX_FETCH_PAGE = 5` page fetches,
only ever fetches while the accumulated map holds fewer than
`MAX_FETCH_SIZE = 200` keys, and when it returns a map it stopped because
one of the two bounds triggered: the page budget is exhausted or the map
reached at least `MAX_FETCH_SIZE` keys — whichever came first. -/
theorem c1_aggregator_page_and_size_bounds :
    ∀ fp : Option Nat → Except Unit (PyDict × Nat),
      (get_time_to_problem_id fp).fetches ≤ MAX_FETCH_PAGE ∧
      (∀ s ∈ (get_time_to_problem_id fp).sizesAtFetch, s < MAX_FETCH_SIZE) ∧
      (∀ d, (get_time_to_problem_id fp).result = Except.ok d →
        (get_time_to_problem_id fp).fetches = MAX_FETCH_PAGE ∨
          MAX_FETCH_SIZE ≤ pyLen d) := by
  intro fp
  exact ⟨agg_loop_fetches_le fp MAX_FETCH_PAGE [] none,
    fun s hs => agg_loop_sizes fp MAX_FETCH_PAGE [] none s hs,
    fun d hd => agg_loop_stop fp MAX_FETCH_PAGE [] none d hd⟩

theorem c1_aggregator_page_and_size_bounds_witness :
    (0 ∈ (get_time_to_problem_id smallPageOracle).sizesAtFetch ∧ 0 < MAX_FETCH_SIZE) ∧
    ((get_time_to_problem_id smallPageOracle).result = Except.ok [(7, 3)] ∧
      ((get_time_to_problem_id smallPageOracle).fetches = MAX_FETCH_PAGE ∨
        MAX_FETCH_SIZE ≤ pyLen [(7, 3)])) :=
  ⟨⟨by decide, (c1_aggregator_page_and_size_bounds smallPageOracle).2.1 0 (by decide)⟩,
   ⟨rfl, (c1_aggregator_page_and_size_bounds smallPageOracle).2.2 [(7, 3)] rfl⟩⟩

/-- Claim C10: the size bound is inspected only before a fetch — at the
moment each fetch is issued the accumulated map holds strictly fewer than
`MAX_FETCH_SIZE` keys — and consequently the returned map is not bounded by
`MAX_FETCH_SIZE`: one oversized page pushes the final map past the bound. -/
theorem c10_size_checked_only_before_fetch :
    (∀ (fp : Option Nat → Except Unit (PyDict × Nat)) (s : Nat),
        s ∈ (get_time_to_problem_id fp).sizesAtFetch → s < MAX_FETCH_SIZE) ∧
    ∃ (fp : Option Nat → Except Unit (PyDict × Nat)) (d : PyDict),
      (get_time_to_problem_id fp).result = Except.ok d ∧
        MAX_FETCH_SIZE < pyLen d := by
  constructor
  · intro fp s hs
    exact agg_loop_sizes fp MAX_FETCH_PAGE [] none s hs
  · refine ⟨bigPageOracle, bigPage, ?_, ?_⟩
    · have hkeys : bigPage.map Prod.fst = List.range 201 := by
        unfold bigPage
        rw [List.map_map, show (Prod.fst ∘ fun i : Nat => (i, 1)) = id from rfl,
          List.map_id]
      have hnodup : pyNodupKeys bigPage := by
        rw [pyNodupKeys, hkeys]
        exact List.nodup_range 201
      have hfresh : ∀ k ∈ bigPage.map Prod.fst, pyLookup ([] : PyDict) k = none := by
        intro k _
        rfl
      have hmerge : merge_dicts [] bigPage = bigPage := by
        rw [merge_dicts_fresh bigPage [] hfresh hnodup]
        rfl
      have hlen : pyLen bigPage = 201 := by
        simp [pyLen, bigPage]
      have hstop : agg_loop bigPageOracle 4 bigPage (some 0)
          = ⟨Except.ok bigPage, 0, []⟩ := by
        show agg_loop bigPageOracle (3 + 1) bigPage (some 0) = _
        exact agg_loop_succ_stop bigPageOracle 3 bigPage (some 0)
          (by rw [hlen]; decide)
      have hrun : get_time_to_problem_id bigPageOracle
          = ⟨Except.ok bigPage, 1, [0]⟩ := by
        show agg_loop bigPageOracle (4 + 1) [] none = _
        rw [agg_loop_succ_ok bigPageOracle 4 [] none bigPage 0 (by decide) rfl]
        rw [hmerge, hstop]
        rfl
      rw [hrun]
    · have hlen : pyLen bigPage = 201 := by
        simp [pyLen, bigPage]
      rw [hlen]
      decide

theorem c10_size_checked_only_before_fetch_witness :
    0 ∈ (get_time_to_problem_id smallPageOracle).sizesAtFetch ∧ 0 < MAX_FETCH_SIZE :=
  ⟨by decide, c10_size_checked_only_before_fetch.1 smallPageOracle 0 (by decide)⟩

/-- The page whose rows observe `(time 1000, problem 5)` then
`(time 1000, problem 9)` below a header row. -/
def pageRowsEx : List Row :=
  [⟨Field.missing, Field.missing, Field.missing⟩,
   ⟨Field.ok 2, Field.ok 5, Field.ok 1000⟩,
   ⟨Field.ok 1, Field.ok 9, Field.ok 1000⟩]

/-- Claim C2: a submission time observed several times is stored with the
maximum of all problem ids observed at that time — within one parsed page
(where the fold keeps `max` against the defaultdict zero) and across merged
pages (`_merge_dicts` keeps the per-key `max`); in particular merging
`{1000: 5}` with `{1000: 9}` yields `{1000: 9}`. -/
theorem c2_duplicate_time_stores_max_problem_id :
    (∀ (trs : List Row) (d : PyDict) (cur : Nat) (t v : Nat),
        parse_time_to_problem_id trs = Except.ok (d, cur) →
        maxList? (pidsAt (trs.drop 1) t) = some v →
        pyLookup d t = some v) ∧
    (∀ (d₁ d₂ : PyDict) (k : Nat), pyNodupKeys d₂ →
        pyLookup (merge_dicts d₁ d₂) k = omax (pyLookup d₁ k) (pyLookup d₂ k)) ∧
    merge_dicts [(1000, 5)] [(1000, 9)] = [(1000, 9)] := by
  refine ⟨?_, ?_, rfl⟩
  · intro trs d cur t v hok hmax
    have hd := (parse_time_to_problem_id_ok trs d cur hok).2.1
    rw [hd, pyLookup_foldl_dictStep, hmax]
    rfl
  · intro d₁ d₂ k h
    exact pyLookup_merge_dicts d₂ d₁ k h

theorem c2_duplicate_time_stores_max_problem_id_witness :
    (parse_time_to_problem_id pageRowsEx = Except.ok ([(1000, 9)], 1) ∧
      maxList? (pidsAt (pageRowsEx.drop 1) 1000) = some 9 ∧
      pyLookup [(1000, 9)] 1000 = some 9) ∧
    (pyNodupKeys [(1000, 9)] ∧
      pyLookup (merge_dicts [(1000, 5)] [(1000, 9)]) 1000
        = omax (pyLookup [(1000, 5)] 1000) (pyLookup [(1000, 9)] 1000)) :=
  ⟨⟨rfl, by decide,
    c2_duplicate_time_stores_max_problem_id.1 pageRowsEx [(1000, 9)] 1 1000 9 rfl
      (by decide)⟩,
   ⟨by decide,
    c2_duplicate_time_stores_max_problem_id.2.1 [(1000, 5)] [(1000, 9)] 1000
      (by decide)⟩⟩

/-- Claim C3: the page merge is idempotent and commutative — merging a page
into an accumulated map twice equals merging it once, and merging page `A`
then `B` equals merging `B` then `A` (equality of Python dicts, i.e. equal
lookups at every key; the page dicts have distinct keys, as every real
Python dict does). -/
theorem c3_merge_idempotent_and_commutative :
    (∀ M A : PyDict, pyNodupKeys A →
        pyEquiv (merge_dicts (merge_dicts M A) A) (merge_dicts M A)) ∧
    (∀ M A B : PyDict, pyNodupKeys A → pyNodupKeys B →
        pyEquiv (merge_dicts (merge_dicts M A) B) (merge_dicts (merge_dicts M B) A)) := by
  constructor
  · intro M A hA k
    rw [pyLookup_merge_dicts A (merge_dicts M A) k hA,
        pyLookup_merge_dicts A M k hA, omax_assoc, omax_idem]
  · intro M A B hA hB k
    rw [pyLookup_merge_dicts B (merge_dicts M A) k hB,
        pyLookup_merge_dicts A M k hA,
        pyLookup_merge_dicts A (merge_dicts M B) k hA,
        pyLookup_merge_dicts B M k hB,
        omax_assoc, omax_assoc, omax_comm (pyLookup A k) (pyLookup B k)]

/-- A small accumulated map and two pages used to exercise C3. -/
def dictM : PyDict := [(1000, 5)]

def dictA : PyDict := [(1000, 9), (2, 2)]

def dictB : PyDict := [(3, 3)]

theorem c3_merge_idempotent_and_commutative_witness :
    (pyNodupKeys dictA ∧
      pyLookup (merge_dicts (merge_dicts dictM dictA) dictA) 1000
        = pyLookup (merge_dicts dictM dictA) 1000) ∧
    (pyNodupKeys dictB ∧
      pyLookup (merge_dicts (merge_dicts dictM dictA) dictB) 2
        = pyLookup (merge_dicts (merge_dicts dictM dictB) dictA) 2) :=
  ⟨⟨by decide, c3_merge_idempotent_and_commutative.1 dictM dictA (by decide) 1000⟩,
   ⟨by decide,
    c3_merge_idempotent_and_commutative.2 dictM dictA dictB (by decide) (by decide) 2⟩⟩

/-- A page whose middle row crashes the parse: its sequence id and problem
id are extracted, but the ninth-cell link lacks the `data-timestamp`
attribute — an uncaught `KeyError`.  The last row is fully parsable and
exposes sequence id 3. -/
def pageRowsC4x : List Row :=
  [⟨Field.missing, Field.missing, Field.missing⟩,
   ⟨Field.ok 5, Field.ok 7, Field.fatal⟩,
   ⟨Field.ok 3, Field.ok 9, Field.ok 100⟩]

/-- Claim C4 counterexample: this page has rows beyond the header and its
last row exposes sequence id 3, yet no cursor is returned at all — an
earlier row's uncaught extraction exception aborts the parse, so the
parser does not return the last row's sequence id (or anything else). -/
theorem c4_counterexample_crashing_row_loses_cursor :
    pageRowsC4x.drop 1
        = [Row.mk (Field.ok 5) (Field.ok 7) Field.fatal]
          ++ [Row.mk (Field.ok 3) (Field.ok 9) (Field.ok 100)] ∧
    (Row.mk (Field.ok 3) (Field.ok 9) (Field.ok 100)).seqId = Field.ok 3 ∧
    parse_time_to_problem_id pageRowsC4x = Except.error ParseErr.rowCrash ∧
    ∀ d, parse_time_to_problem_id pageRowsC4x ≠ Except.ok (d, 3) := by
  refine ⟨rfl, rfl, rfl, ?_⟩
  intro d h
  rw [show parse_time_to_problem_id pageRowsC4x = Except.error ParseErr.rowCrash
    from rfl] at h
  exact absurd h (by simp)

/-- Claim C4 (amended): whenever the page parser returns at all — no row
aborted it with an uncaught extraction exception — and the last row of the
page exposes a sequence id, the returned cursor is that sequence id,
whether or not the last row contributed to the map; and a page none of
whose rows crashes, with a sequence id on its last row, does return with
that cursor. -/
theorem c4_cursor_is_last_row_sequence_id :
    (∀ (trs : List Row) (d : PyDict) (c : Nat) (rs : List Row) (r : Row) (n : Nat),
        trs.drop 1 = rs ++ [r] → r.seqId = Field.ok n →
        parse_time_to_problem_id trs = Except.ok (d, c) → c = n) ∧
    (∀ (trs rs : List Row) (r : Row) (n : Nat),
        trs.drop 1 = rs ++ [r] → r.seqId = Field.ok n →
        (∀ r' ∈ trs.drop 1, rowCrashes r' = false) →
        ∃ d, parse_time_to_problem_id trs = Except.ok (d, n)) := by
  constructor
  · intro trs d c rs r n hdrop hseq hok
    have hls := (parse_time_to_problem_id_ok trs d c hok).2.2
    rw [hdrop, lastSeq_append_last rs r n none hseq] at hls
    injection hls with h2
    exact h2.symm
  · intro trs rs r n hdrop hseq hnc
    have hpr := parse_rows_no_crash (trs.drop 1) [] none hnc
    have hls : lastSeq (trs.drop 1) none = some n := by
      rw [hdrop]
      exact lastSeq_append_last rs r n none hseq
    refine ⟨(trs.drop 1).foldl dictStep [], ?_⟩
    unfold parse_time_to_problem_id
    rw [hpr, hls]

/-- A crash-free page whose middle row exposes only a sequence id and
whose last row is fully parsable. -/
def pageRowsC4 : List Row :=
  [⟨Field.missing, Field.missing, Field.missing⟩,
   ⟨Field.ok 10, Field.missing, Field.missing⟩,
   ⟨Field.ok 7, Field.ok 42, Field.ok 500⟩]

theorem c4_cursor_is_last_row_sequence_id_witness :
    (pageRowsC4.drop 1
        = [Row.mk (Field.ok 10) Field.missing Field.missing]
          ++ [Row.mk (Field.ok 7) (Field.ok 42) (Field.ok 500)] ∧
      (∀ r' ∈ pageRowsC4.drop 1, rowCrashes r' = false)) ∧
    ∃ d, parse_time_to_problem_id pageRowsC4 = Except.ok (d, 7) :=
  ⟨⟨rfl, by decide⟩,
   c4_cursor_is_last_row_sequence_id.2 pageRowsC4
     [Row.mk (Field.ok 10) Field.missing Field.missing]
     (Row.mk (Field.ok 7) (Field.ok 42) (Field.ok 500)) 7 rfl rfl (by decide)⟩

/-- A page with a header row and one blank data row (no cells at all): the
loop hits the caught `IndexError` before `last_submit_id` is ever
assigned, skips the row, and the final `return` raises
`UnboundLocalError`. -/
def pageRowsC5 : List Row :=
  [⟨Field.missing, Field.missing, Field.missing⟩,
   ⟨Field.missing, Field.missing, Field.missing⟩]

/-- A page with a header row and one data row exposing only a sequence id:
zero parsable rows, no crash, and the parse returns normally. -/
def pageRowsC5b : List Row :=
  [⟨Field.missing, Field.missing, Field.missing⟩,
   ⟨Field.ok 3, Field.missing, Field.missing⟩]

/-- Claim C5 counterexample: this page contains a row beyond the header
(so it is not a page "with no rows at all"), none of its rows is parsable,
and yet the parser does not return an empty mapping with a cursor — it
crashes with `UnboundLocalError`, contradicting the claim that the parser
fails only on a page with no rows at all. -/
theorem c5_counterexample_blank_rows_crash :
    pageRowsC5.length = 2 ∧
    pageRowsC5.drop 1 ≠ [] ∧
    parse_time_to_problem_id pageRowsC5 = Except.error ParseErr.unboundCursor :=
  ⟨rfl, by simp [pageRowsC5], rfl⟩

/-- Claim C5 (amended): the parser fails in exactly two ways — with an
uncaught extraction exception exactly when some row after the header is
present-but-malformed, and with `UnboundLocalError` exactly when no row
crashes and no row after the header ever exposes a sequence id (which
covers a page with no rows at all); a page where no row crashes, some row
exposes a sequence id, and no row is fully parsable returns an empty
mapping and a cursor without crashing. -/
theorem c5_parse_failure_modes :
    ∀ trs : List Row,
      (parse_time_to_problem_id trs = Except.error ParseErr.rowCrash
        ↔ ∃ r ∈ trs.drop 1, rowCrashes r = true) ∧
      (parse_time_to_problem_id trs = Except.error ParseErr.unboundCursor
        ↔ (∀ r ∈ trs.drop 1, rowCrashes r = false) ∧
          ∀ r ∈ trs.drop 1, r.seqId.isOk = false) ∧
      ((∀ r ∈ trs.drop 1, rowCrashes r = false) →
        (∃ r ∈ trs.drop 1, r.seqId.isOk = true) →
        (∀ r ∈ trs.drop 1, isFullRow r = false) →
        ∃ c, parse_time_to_problem_id trs = Except.ok ([], c)) := by
  intro trs
  refine ⟨?_, ?_, ?_⟩
  · constructor
    · intro h
      by_contra hno
      push_neg at hno
      have hnc : ∀ r ∈ trs.drop 1, rowCrashes r = false := by
        intro r hr
        have hx := hno r hr
        cases hb : rowCrashes r with
        | false => rfl
        | true => exact absurd hb hx
      have hpr := parse_rows_no_crash (trs.drop 1) [] none hnc
      unfold parse_time_to_problem_id at h
      rw [hpr] at h
      cases hls : lastSeq (trs.drop 1) none with
      | none =>
        rw [hls] at h
        simp at h
      | some n =>
        rw [hls] at h
        simp at h
    · intro hex
      have hpr := parse_rows_crash (trs.drop 1) ([], none) hex
      unfold parse_time_to_problem_id
      rw [hpr]
  · constructor
    · intro h
      have hnc : ∀ r ∈ trs.drop 1, rowCrashes r = false := by
        by_contra hno
        push_neg at hno
        obtain ⟨r, hr, hcr⟩ := hno
        have hcr' : rowCrashes r = true := by
          cases hb : rowCrashes r with
          | true => rfl
          | false => exact absurd hb hcr
        have hpr := parse_rows_crash (trs.drop 1) ([], none) ⟨r, hr, hcr'⟩
        unfold parse_time_to_problem_id at h
        rw [hpr] at h
        simp at h
      refine ⟨hnc, ?_⟩
      have hpr := parse_rows_no_crash (trs.drop 1) [] none hnc
      unfold parse_time_to_problem_id at h
      rw [hpr] at h
      rw [← lastSeq_none_iff]
      cases hls : lastSeq (trs.drop 1) none with
      | none => rfl
      | some n =>
        rw [hls] at h
        simp at h
    · intro hx
      obtain ⟨hnc, hseq⟩ := hx
      have hpr := parse_rows_no_crash (trs.drop 1) [] none hnc
      have hls : lastSeq (trs.drop 1) none = none := (lastSeq_none_iff _).mpr hseq
      unfold parse_time_to_problem_id
      rw [hpr, hls]
  · intro hnc hex hfull
    have hpr := parse_rows_no_crash (trs.drop 1) [] none hnc
    have hnil : (trs.drop 1).foldl dictStep [] = [] :=
      foldl_dictStep_no_full (trs.drop 1) [] hfull
    have hlsne : lastSeq (trs.drop 1) none ≠ none := by
      intro hisnone
      have hall := (lastSeq_none_iff (trs.drop 1)).mp hisnone
      obtain ⟨r, hr, hok⟩ := hex
      rw [hall r hr] at hok
      exact absurd hok (by simp)
    cases hls : lastSeq (trs.drop 1) none with
    | none => exact absurd hls hlsne
    | some m =>
      refine ⟨m, ?_⟩
      unfold parse_time_to_problem_id
      rw [hpr, hls, hnil]

theorem c5_parse_failure_modes_witness :
    (∀ r ∈ pageRowsC5b.drop 1, rowCrashes r = false) ∧
    (∃ r ∈ pageRowsC5b.drop 1, r.seqId.isOk = true) ∧
    ∃ c, parse_time_to_problem_id pageRowsC5b = Except.ok ([], c) :=
  ⟨by decide, by decide,
   (c5_parse_failure_modes pageRowsC5b).2.2 (by decide) (by decide) (by decide)⟩

/-- A page whose second data row is fully parsable but is never reached:
the first data row has its sequence id and problem id, but its ninth-cell
link lacks the `data-timestamp` attribute — an uncaught `KeyError`. -/
def pageRowsC6x : List Row :=
  [⟨Field.missing, Field.missing, Field.missing⟩,
   ⟨Field.ok 11, Field.ok 2048, Field.fatal⟩,
   ⟨Field.ok 9, Field.ok 1005, Field.ok 777⟩]

/-- Claim C6 counterexample: the first data row is missing its
submission_time (its timestamp link exposes no `data-timestamp`
attribute), so by the claim it would be skipped and the rest of the page
parsed; instead the uncaught `KeyError` aborts the page — nothing is
returned and the later fully-parsable row is never parsed. -/
theorem c6_counterexample_missing_timestamp_attr_aborts :
    isFullRow (Row.mk (Field.ok 11) (Field.ok 2048) Field.fatal) = false ∧
    Row.mk (Field.ok 11) (Field.ok 2048) Field.fatal ∈ pageRowsC6x.drop 1 ∧
    parse_time_to_problem_id pageRowsC6x = Except.error ParseErr.rowCrash ∧
    ∀ d c, parse_time_to_problem_id pageRowsC6x ≠ Except.ok (d, c) := by
  refine ⟨rfl, by decide, rfl, ?_⟩
  intro d c h
  rw [show parse_time_to_problem_id pageRowsC6x = Except.error ParseErr.rowCrash
    from rfl] at h
  exact absurd h (by simp)

/-- Claim C6 (amended): a row whose extraction fails with the caught
`IndexError` — a cell or link absent — is skipped without touching the
map, and when no row of the page crashes the whole page is parsed, its map
equal to the map over the fully-parsable rows alone; but a row with a
present-but-malformed cell aborts the page with an uncaught exception. -/
theorem c6_malformed_rows_skipped_rest_parsed :
    (∀ (st : PyDict × Option Nat) (r : Row),
        rowCrashes r = false → isFullRow r = false →
        ∃ c', parse_row st r = Except.ok (st.1, c')) ∧
    (∀ (rows : List Row) (d : PyDict) (c : Option Nat),
        (∀ r ∈ rows, rowCrashes r = false) →
        parse_rows rows (d, c) = Except.ok (rows.foldl dictStep d, lastSeq rows c) ∧
        (rows.filter isFullRow).foldl dictStep d = rows.foldl dictStep d) ∧
    (∀ (rows : List Row) (st : PyDict × Option Nat),
        (∃ r ∈ rows, rowCrashes r = true) →
        parse_rows rows st = Except.error ParseErr.rowCrash) := by
  refine ⟨?_, ?_, ?_⟩
  · intro st r hnc hfull
    obtain ⟨d, c⟩ := st
    refine ⟨cursorStep c r, ?_⟩
    rw [parse_row_no_crash d c r hnc]
    have hobs : rowObs r = none := by
      cases ho : rowObs r with
      | none => rfl
      | some x =>
        rw [isFullRow, ho] at hfull
        exact absurd hfull (by simp)
    rw [show dictStep d r = d from by simp [dictStep, hobs]]
  · intro rows d c hnc
    exact ⟨parse_rows_no_crash rows d c hnc, (foldl_dictStep_filter rows d).symm⟩
  · intro rows st hex
    exact parse_rows_crash rows st hex

/-- A row skipped by `IndexError` and a crash-free two-row page. -/
def rowSkipEx : Row := ⟨Field.ok 5, Field.missing, Field.missing⟩

def rowsC6 : List Row :=
  [⟨Field.ok 5, Field.missing, Field.missing⟩,
   ⟨Field.ok 2, Field.ok 7, Field.ok 100⟩]

theorem c6_malformed_rows_skipped_rest_parsed_witness :
    (rowCrashes rowSkipEx = false ∧ isFullRow rowSkipEx = false ∧
      ∃ c', parse_row ([], none) rowSkipEx = Except.ok ([], c')) ∧
    ((∀ r ∈ rowsC6, rowCrashes r = false) ∧
      parse_rows rowsC6 ([], none)
        = Except.ok (rowsC6.foldl dictStep [], lastSeq rowsC6 none) ∧
      (rowsC6.filter isFullRow).foldl dictStep [] = rowsC6.foldl dictStep []) :=
  ⟨⟨rfl, rfl,
    c6_malformed_rows_skipped_rest_parsed.1 ([], none) rowSkipEx rfl rfl⟩,
   ⟨by decide,
    (c6_malformed_rows_skipped_rest_parsed.2.1 rowsC6 [] none (by decide)).1,
    (c6_malformed_rows_skipped_rest_parsed.2.1 rowsC6 [] none (by decide)).2⟩⟩

/-- Claim C7: a problem id absent from the level catalog makes level
resolution fail — the id is neither skipped nor given a default level; the
`dict.get` returns `None`, which then crashes `sorted` or the
`LEVEL_REFERENCE` lookup.  With the catalog loaded from
`"1000,5\n1001,6\n"`, looking up 9999 is such a failure. -/
theorem c7_unknown_problem_id_is_lookup_failure :
    (∀ (catalog : LevelDict) (ids : List Nat) (i : Nat),
        i ∈ ids → pyLookup catalog (i : Int) = none →
        get_problem_levels catalog ids = Except.error ()) ∧
    get_problem_level_dict ["1000,5\n", "1001,6\n"]
      = Except.ok [((1000 : Int), 5), ((1001 : Int), 6)] ∧
    pyLookup [((1000 : Int), 5), ((1001 : Int), 6)] (9999 : Int) = none ∧
    get_problem_levels [((1000 : Int), 5), ((1001 : Int), 6)] [9999]
      = Except.error () := by
  refine ⟨?_, rfl, rfl, rfl⟩
  intro catalog ids i hmem hnone
  have hne : ids.isEmpty = false := by
    cases ids with
    | nil => exact absurd hmem (by simp)
    | cons a l => rfl
  have hall : (ids.map (fun (j : Nat) => pyLookup catalog (j : Int))).all Option.isSome
      = false := by
    rw [List.all_eq_false]
    refine ⟨pyLookup catalog (i : Int), List.mem_map_of_mem _ hmem, ?_⟩
    rw [hnone]
    simp
  simp [get_problem_levels, hne, hall]

theorem c7_unknown_problem_id_is_lookup_failure_witness :
    (9999 ∈ [9999] ∧
      pyLookup [((1000 : Int), 5), ((1001 : Int), 6)] ((9999 : Nat) : Int) = none) ∧
    get_problem_levels [((1000 : Int), 5), ((1001 : Int), 6)] [9999]
      = Except.error () :=
  ⟨⟨by decide, rfl⟩,
   c7_unknown_problem_id_is_lookup_failure.1 [((1000 : Int), 5), ((1001 : Int), 6)]
     [9999] 9999 (by decide) rfl⟩

theorem parse_level_fields_not_two (d : LevelDict) (parts : List String)
    (h : parts.length ≠ 2) : parse_level_fields d parts = Except.error () := by
  rcases parts with _ | ⟨a, _ | ⟨b, _ | ⟨c, rest⟩⟩⟩
  · rfl
  · rfl
  · exact absurd rfl h
  · rfl

/-- Claim C8 counterexample: the dataset line `"abc,def"` is malformed, so
per the claim it would be skipped and loading the two-line dataset below
would succeed; instead `int("abc")` raises an uncaught `ValueError` and
loading fails. -/
theorem c8_counterexample_malformed_comma_line_fails :
    get_problem_level_dict ["1000,5\n", "abc,def\n"] = Except.error () := rfl

/-- Claim C8 (amended): a line without a comma (blank lines included) is
skipped and loading continues; a line that splits at its commas into
exactly two pieces both accepted by Python `int` — optionally signed
decimal integers, with underscores allowed between digits — is loaded as
an id-to-level entry (so the example dataset resolves 1000 to 5 and 1001
to 6); but a comma-containing line with more than two pieces, or with a
piece `int` rejects, aborts the whole load with an error. -/
theorem c8_loader_skips_only_comma_free_lines :
    (∀ (d : LevelDict) (line : String), line.data.contains ',' = false →
        parse_level_line d line = Except.ok d) ∧
    (∀ (d : LevelDict) (line a b : String) (i l : Int),
        splitComma line = [a, b] → pyInt? a = some i → pyInt? b = some l →
        parse_level_line d line = Except.ok (pySet d i l)) ∧
    (∀ (d : LevelDict) (line : String) (parts : List String),
        splitComma line = parts → 3 ≤ parts.length →
        parse_level_line d line = Except.error ()) ∧
    (∀ (d : LevelDict) (line a b : String),
        splitComma line = [a, b] → (pyInt? a = none ∨ pyInt? b = none) →
        parse_level_line d line = Except.error ()) ∧
    get_problem_level_dict ["1000,5\n", "1001,6\n"]
      = Except.ok [((1000 : Int), 5), ((1001 : Int), 6)] ∧
    pyLookup [((1000 : Int), 5), ((1001 : Int), 6)] (1000 : Int) = some 5 ∧
    pyLookup [((1000 : Int), 5), ((1001 : Int), 6)] (1001 : Int) = some 6 := by
  refine ⟨?_, ?_, ?_, ?_, rfl, rfl, rfl⟩
  · intro d line h
    unfold parse_level_line
    rw [h]
    simp
  · intro d line a b i l hsplit ha hb
    have hc : line.data.contains ',' = true := by
      apply contains_comma_of_two_pieces
      rw [hsplit]
      simp
    unfold parse_level_line
    rw [hc, if_pos rfl, hsplit]
    simp only [parse_level_fields]
    rw [ha, hb]
  · intro d line parts hsplit hlen
    have hc : line.data.contains ',' = true := by
      apply contains_comma_of_two_pieces
      rw [hsplit]
      omega
    unfold parse_level_line
    rw [hc, if_pos rfl, hsplit]
    exact parse_level_fields_not_two d parts (by omega)
  · intro d line a b hsplit hor
    have hc : line.data.contains ',' = true := by
      apply contains_comma_of_two_pieces
      rw [hsplit]
      simp
    unfold parse_level_line
    rw [hc, if_pos rfl, hsplit]
    simp only [parse_level_fields]
    rcases hor with ha | hb
    · rw [ha]
    · rw [hb]
      cases hpa : pyInt? a <;> rfl

theorem c8_loader_skips_only_comma_free_lines_witness :
    (("\n").data.contains ',' = false ∧ parse_level_line [] "\n" = Except.ok []) ∧
    (splitComma "-2,+3_0\n" = ["-2", "+3_0\n"] ∧ pyInt? "-2" = some (-2) ∧
      pyInt? "+3_0\n" = some 30 ∧
      parse_level_line [] "-2,+3_0\n" = Except.ok (pySet [] (-2) 30)) ∧
    (splitComma "1,2,3" = ["1", "2", "3"] ∧
      parse_level_line [] "1,2,3" = Except.error ()) ∧
    (splitComma "1,abc" = ["1", "abc"] ∧ pyInt? "abc" = none ∧
      parse_level_line [] "1,abc" = Except.error ()) :=
  ⟨⟨rfl, c8_loader_skips_only_comma_free_lines.1 [] "\n" rfl⟩,
   ⟨rfl, rfl, rfl,
    c8_loader_skips_only_comma_free_lines.2.1 [] "-2,+3_0\n" "-2" "+3_0\n" (-2) 30
      rfl rfl rfl⟩,
   ⟨rfl,
    c8_loader_skips_only_comma_free_lines.2.2.1 [] "1,2,3" ["1", "2", "3"]
      rfl (by decide)⟩,
   ⟨rfl, rfl,
    c8_loader_skips_only_comma_free_lines.2.2.2.1 [] "1,abc" "1" "abc"
      rfl (Or.inr rfl)⟩⟩

/-- Catalog and canonical map of the C9 example: one problem of level 5,
one submission at epoch second 0 (calendar day 0), with "today" being
day 2 — so the submission happened two days ago. -/
def exCatalog : LevelDict := [((1000 : Int), 5)]

def exMap : PyDict := [(0, 1000)]

/-- Claim C9: the reporting window holds exactly `n` consecutive days
ending yesterday (cell `i` belongs to day `today - (i+1)`; `today` itself
is excluded), each cell is aligned with its window day (the same `days`
list indexes headers and cells), a cell renders the `"-"` marker exactly
when the user has no submission on that day, and in the 3-day example with
one submission two days ago exactly the middle cell is non-empty. -/
theorem c9_window_days_and_no_activity_marker :
    (∀ (catalog : LevelDict) (m : PyDict) (today : Int) (n : Nat)
        (cells : List PyCell),
        view_row catalog today n m = Except.ok cells →
        cells.length = n ∧
        ∀ i : Nat, i < n →
          (window_days today n)[i]? = some (today - ((i : Int) + 1)) ∧
          (cells[i]? = some PyCell.dash ↔
            ∀ kv ∈ m, parse_date kv.1 ≠ today - ((i : Int) + 1))) ∧
    window_days 2 3 = [1, 0, -1] ∧
    parse_date 0 = 2 - 2 ∧
    view_row exCatalog 2 3 exMap
      = Except.ok [PyCell.dash, PyCell.levels ["B1"], PyCell.dash] := by
  refine ⟨?_, by decide, by decide, rfl⟩
  intro catalog m today n cells hok
  have hlen : cells.length = (window_days today n).length :=
    cellsM_ok_length catalog (group_problem_ids_per_day m) (window_days today n)
      cells hok
  have hwl : (window_days today n).length = n := by
    simp [window_days]
  constructor
  · rw [hlen, hwl]
  · intro i hi
    have hw := window_days_getElem? today n i hi
    refine ⟨hw, ?_⟩
    obtain ⟨cell, hcell, hdc⟩ := cellsM_ok_getElem? catalog
      (group_problem_ids_per_day m) (window_days today n) cells hok i
      (today - ((i : Int) + 1)) hw
    rw [hcell]
    constructor
    · intro h
      have hc : cell = PyCell.dash := by simpa using h
      rw [hc] at hdc
      exact (day_cell_dash_iff catalog m (today - ((i : Int) + 1))).mp hdc
    · intro h
      have hdash : day_cell catalog (group_problem_ids_per_day m)
          (today - ((i : Int) + 1)) = Except.ok PyCell.dash :=
        (day_cell_dash_iff catalog m (today - ((i : Int) + 1))).mpr h
      rw [hdc] at hdash
      have hc : cell = PyCell.dash := by simpa using hdash
      rw [hc]

theorem c9_window_days_and_no_activity_marker_witness :
    ((1 : Nat) < 3) ∧
    (window_days 2 3)[1]? = some (2 - (((1 : Nat) : Int) + 1)) ∧
    (([PyCell.dash, PyCell.levels ["B1"], PyCell.dash] : List PyCell)[1]?
        = some PyCell.dash ↔
      ∀ kv ∈ exMap, parse_date kv.1 ≠ 2 - (((1 : Nat) : Int) + 1)) :=
  ⟨by decide,
   ((c9_window_days_and_no_activity_marker.1 exCatalog exMap 2 3
      [PyCell.dash, PyCell.levels ["B1"], PyCell.dash] rfl).2 1 (by decide)).1,
   ((c9_window_days_and_no_activity_marker.1 exCatalog exMap 2 3
      [PyCell.dash, PyCell.levels ["B1"], PyCell.dash] rfl).2 1 (by decide)).2⟩

end BojStat
